import Mathlib

/-!
# Flux-Messenger: shallow embedding and verification

A shallow embedding of the presence/freshness reconciliation logic, the
chat-identity derivation scheme, the presence lifecycle driver, the
message-snapshot handler, and the username-search normalization of the
Flux-Messenger client, together with proofs of the specified properties.

JavaScript strings are sequences of UTF-16 code units; we embed them as
`List Nat` (each element a code unit).  Timestamps (`Date.now()` values)
are embedded as `Int`; `Math.floor` of a quotient of such values is
`Int.fdiv`.  Optional / possibly-`undefined` record fields are embedded as
`Option` and JavaScript truthiness tests are made explicit.
-/

namespace Flux

/-- A JavaScript string: a finite sequence of UTF-16 code units. -/
abbrev JSStr := List Nat

/-- The UTF-16 code units of an ASCII/BMP Lean string literal (each Lean
`Char` below `0x10000` is a single code unit).  Used only to write
concrete inputs; all identifiers appearing in the claims are ASCII. -/
def units (s : String) : JSStr := s.data.map Char.toNat

/-- Lexicographic order on code-unit sequences: the order JavaScript's
abstract relational comparison (`<` on strings) uses, hence the order used
by the default `Array.prototype.sort` comparator. -/
def unitLt : JSStr → JSStr → Bool
  | [], [] => false
  | [], _ :: _ => true
  | _ :: _, [] => false
  | a :: as, b :: bs =>
    if a < b then true
    else if b < a then false
    else unitLt as bs

/-- The `_` delimiter code unit. -/
def underscore : Nat := 95

/-- Function `getChatId` from `src/services/chatService.ts`:
`[uid1, uid2].sort().join('_')`.  The default two-element sort returns
`[uid2, uid1]` exactly when `uid2 < uid1` in code-unit order (the default
comparator compares the elements as strings), and `join('_')` concatenates
with a single `_` between the elements. -/
def getChatId (uid1 uid2 : JSStr) : JSStr :=
  if unitLt uid2 uid1 then uid2 ++ underscore :: uid1
  else uid1 ++ underscore :: uid2

/-- Model of `String.prototype.split` with a single-code-unit separator, as used by
`chatId.split('_')` in `sendMessage`: accumulator-based splitting on every
occurrence of the separator. -/
def splitAux (sep : Nat) : JSStr → JSStr → List JSStr
  | [], acc => [acc.reverse]
  | c :: rest, acc =>
    if c = sep then acc.reverse :: splitAux sep rest []
    else splitAux sep rest (c :: acc)

/-- The expression `key.split('_')` — the session-metadata participant reconstruction in
`sendMessage` (`participants: chatId.split('_')`). -/
def participantsFromKey (key : JSStr) : List JSStr :=
  splitAux underscore key []

/-! ## Presence reconciler (`src/components/ChatRoom.tsx`) -/

/-- The user-profile record as read from a Firestore snapshot.  The
declared `UserProfile` interface (`src/types.ts`) has `uid`, `email`,
`username`, `displayName`, optional `photoURL` and `createdAt`; the
presence lifecycle driver additionally writes `isOnline` and `lastSeen`
onto the same document, so at runtime both are present-or-`undefined` —
embedded as `Option` fields. -/
structure UserProfile where
  uid : JSStr
  email : JSStr
  username : JSStr
  displayName : JSStr
  photoURL : Option JSStr
  createdAt : Int
  isOnline : Option Bool
  lastSeen : Option Int
  deriving Repr, DecidableEq

/-- JavaScript truthiness of a possibly-`undefined` boolean field:
`undefined` and `false` are falsy. -/
def truthyBool : Option Bool → Bool
  | none => false
  | some b => b

/-- JavaScript truthiness of a possibly-`undefined` number field:
`undefined` and `0` are falsy. -/
def truthyNum : Option Int → Bool
  | none => false
  | some n => decide (n ≠ 0)

/-- The numeric value of a possibly-`undefined` number field; only read
behind a truthiness guard in the source, so the `none` default is never
reached there. -/
def numVal : Option Int → Int
  | none => 0
  | some n => n

/-- Function `isUserReallyOnline` from `src/components/ChatRoom.tsx` (lines
102–106):
```
if (!user.isOnline) return false;
if (!user.lastSeen) return false;
return (now - user.lastSeen) < 120000;
``` -/
def isUserReallyOnline (user : UserProfile) (now : Int) : Bool :=
  if !truthyBool user.isOnline then false
  else if !truthyNum user.lastSeen then false
  else decide (now - numVal user.lastSeen < 120000)

/-- The shape of the status string produced by `getStatusText`.  The
locale-dependent renderings (`toLocaleTimeString`, `toLocaleDateString`)
are external; the constructors carry the timestamp they would render. -/
inductive StatusText where
  | online
  | offline
  | justNow
  | minutesAgo (n : Int)
  | todayAt (lastSeen : Int)
  | yesterday
  | onDate (lastSeen : Int)
  deriving Repr, DecidableEq

/-- Function `getStatusText` from `src/components/ChatRoom.tsx` (lines 111–129):
```
if (isOnline) return "Online";
if (!user.lastSeen) return "Offline";
const diff = now - user.lastSeen;
const minutes = Math.floor(diff / 60000);
const hours = Math.floor(minutes / 60);
const days = Math.floor(hours / 24);
if (minutes < 2) return "был(а) только что";
if (minutes < 60) return `был(а) ${minutes} мин. назад`;
if (hours < 24) return `был(а) сегодня в ${timeStr}`;
if (days < 2) return "был(а) вчера";
return `был(а) ${date}`;
```
The component-level `isOnline` is `isUserReallyOnline otherUser`, and the
function is applied to that same `otherUser`, so it is inlined here. -/
def getStatusText (user : UserProfile) (now : Int) : StatusText :=
  if isUserReallyOnline user now then .online
  else if !truthyNum user.lastSeen then .offline
  else
    let diff := now - numVal user.lastSeen
    let minutes := Int.fdiv diff 60000
    let hours := Int.fdiv minutes 60
    let days := Int.fdiv hours 24
    if minutes < 2 then .justNow
    else if minutes < 60 then .minutesAgo minutes
    else if hours < 24 then .todayAt (numVal user.lastSeen)
    else if days < 2 then .yesterday
    else .onDate (numVal user.lastSeen)

/-! ## Presence lifecycle driver (the `App` presence `useEffect`) -/

/-- Document visibility (`document.visibilityState`). -/
inductive Visibility where
  | visible
  | hidden
  deriving Repr, DecidableEq

/-- The events the presence `useEffect` in `App` reacts to: effect mount
(`setOnline()` runs immediately), a `visibilitychange` whose new state is
carried by the event, a `beforeunload`, a heartbeat interval tick, and
effect cleanup (unmount).  Each carries the `Date.now()` value observed by
the handler. -/
inductive DriverEvent where
  | mount (t : Int)
  | visibility (v : Visibility) (t : Int)
  | beforeUnload (t : Int)
  | heartbeatTick (t : Int)
  | unmount (t : Int)
  deriving Repr, DecidableEq

/-- A presence write issued by the driver: `transitionWrite b t` is
`updateDoc(userRef, { isOnline: b, lastSeen: t })` (from `setOnline` /
`setOffline`); `heartbeatWrite t` is `updateDoc(userRef, { lastSeen: t })`
(from the heartbeat interval callback). -/
inductive PresenceWrite where
  | transitionWrite (isOnline : Bool) (lastSeen : Int)
  | heartbeatWrite (lastSeen : Int)
  deriving Repr, DecidableEq

/-- Whether the source attaches a rejection handler to the write's
promise: `setOnline` and `setOffline` end in
`.catch(e => console.error(...))`; the heartbeat `updateDoc` call has no
`.catch`. -/
def hasRejectionHandler : PresenceWrite → Bool
  | .transitionWrite _ _ => true
  | .heartbeatWrite _ => false

/-- The heartbeat interval period passed to `setInterval` (milliseconds). -/
def heartbeatIntervalMs : Int := 30000

/-- One step of the presence driver.  The driver keeps no state of its
own; the only state consulted is the ambient `document.visibilityState`.
`mount` runs `setOnline()`; a `visibilitychange` handler reads the new
visibility and runs `setOnline`/`setOffline`; `beforeunload` and cleanup
run `setOffline`; the interval callback writes `{ lastSeen: Date.now() }`
only when the document is visible. -/
def stepDriver (vis : Visibility) : DriverEvent → Visibility × List PresenceWrite
  | .mount t => (vis, [.transitionWrite true t])
  | .visibility v t =>
    (v, if v = .visible then [.transitionWrite true t] else [.transitionWrite false t])
  | .beforeUnload t => (vis, [.transitionWrite false t])
  | .heartbeatTick t => (vis, if vis = .visible then [.heartbeatWrite t] else [])
  | .unmount t => (vis, [.transitionWrite false t])

/-- Run the driver over an event sequence, collecting the presence writes
in order. -/
def runDriver (vis : Visibility) : List DriverEvent → List PresenceWrite
  | [] => []
  | e :: es => (stepDriver vis e).2 ++ runDriver (stepDriver vis e).1 es

/-- Whether a write is an offline-transition write
(`{ isOnline: false, lastSeen: … }`). -/
def isOfflineWrite : PresenceWrite → Bool
  | .transitionWrite b _ => !b
  | .heartbeatWrite _ => false

/-- Whether a write is a heartbeat write (`{ lastSeen: … }` alone). -/
def isHeartbeatWrite : PresenceWrite → Bool
  | .transitionWrite _ _ => false
  | .heartbeatWrite _ => true

/-- Applying a write to the user's stored record: `updateDoc` merges the
given fields into the document and leaves every other field as it was. -/
def applyWrite (r : UserProfile) : PresenceWrite → UserProfile
  | .transitionWrite b t => { r with isOnline := some b, lastSeen := some t }
  | .heartbeatWrite t => { r with lastSeen := some t }

/-- Run the driver with a write-failure oracle: each issued write is
paired with the oracle's verdict (`true` = the write's promise rejects).
The driver itself never consults the verdicts — the `.catch` handlers in
the source only log — so the oracle feeds into the attempt record only. -/
def runDriverF (fail : PresenceWrite → Bool) (vis : Visibility) :
    List DriverEvent → List (PresenceWrite × Bool)
  | [] => []
  | e :: es =>
    ((stepDriver vis e).2).map (fun w => (w, fail w)) ++
      runDriverF fail (stepDriver vis e).1 es

/-- The rejections that escape the driver boundary: failed writes with no
rejection handler attached (they surface as global unhandled promise
rejections rather than being caught inside the driver). -/
def escapedRejections (attempts : List (PresenceWrite × Bool)) : List PresenceWrite :=
  (attempts.filter (fun a => a.2 && !hasRejectionHandler a.1)).map Prod.fst

/-- The failures caught and logged inside the driver (`console.error` in
the `.catch` handlers of `setOnline`/`setOffline`). -/
def loggedFailures (attempts : List (PresenceWrite × Bool)) : List PresenceWrite :=
  (attempts.filter (fun a => a.2 && hasRejectionHandler a.1)).map Prod.fst

/-! ## Message snapshot handler (`src/components/ChatRoom.tsx`) -/

/-- A chat message document (`Message` in `src/types.ts`). -/
structure Message where
  id : JSStr
  text : JSStr
  senderId : JSStr
  senderName : JSStr
  createdAt : Int
  chatId : JSStr
  deriving Repr, DecidableEq

/-- Stable insertion of a message into a list sorted by `createdAt`,
placing the new element after existing equal keys (the stable-sort
behavior mandated for `Array.prototype.sort`). -/
def insertByCreatedAt (m : Message) : List Message → List Message
  | [] => [m]
  | x :: xs =>
    if x.createdAt ≤ m.createdAt then x :: insertByCreatedAt m xs
    else m :: x :: xs

/-- The sort performed by
`msgs.sort((a, b) => a.createdAt - b.createdAt)`: a stable sort of the
delivered documents into non-decreasing `createdAt` order (ECMAScript
specifies sort as a stable permutation consistent with the comparator;
the comparator here orders numbers ascending).  Modelled as left-to-right
insertion, which is stable for this insertion function. -/
def sortByCreatedAt (docs : List Message) : List Message :=
  docs.foldl (fun acc m => insertByCreatedAt m acc) []

/-- The `onSnapshot` handler body for the messages query: map the
delivered documents to `Message` values and sort them client-side by
`createdAt` (the query itself has no `orderBy`), producing the new
`messages` state. -/
def handleMessagesSnapshot (docs : List Message) : List Message :=
  sortByCreatedAt docs

/-! ## Username search normalization (`src/services/chatService.ts`) -/

/-- The code units removed by `String.prototype.trim` (ECMAScript
WhiteSpace and LineTerminator). -/
def isTrimmedWhiteSpace (u : Nat) : Bool :=
  u = 9 || u = 10 || u = 11 || u = 12 || u = 13 || u = 32 || u = 160 ||
  u = 0x1680 || (0x2000 ≤ u && u ≤ 0x200A) || u = 0x2028 || u = 0x2029 ||
  u = 0x202F || u = 0x205F || u = 0x3000 || u = 0xFEFF

/-- Model of `String.prototype.trim`: drop leading and trailing
whitespace code units. -/
def jsTrim (s : JSStr) : JSStr :=
  ((s.dropWhile isTrimmedWhiteSpace).reverse.dropWhile isTrimmedWhiteSpace).reverse

/-- Case mapping of a single code unit for `String.prototype.toLowerCase`,
restricted to the ASCII fragment (`A`–`Z` map down by 32; every other
unit is left fixed).  The app's handles are ASCII `@`-handles, and every
input exercised by the claims is ASCII; the full Unicode simple case
mappings of non-ASCII cased letters are outside this model. -/
def toLowerUnit (u : Nat) : Nat :=
  if 65 ≤ u ∧ u ≤ 90 then u + 32 else u

/-- Model of `String.prototype.toLowerCase` on the ASCII fragment:
unit-wise case mapping. -/
def jsToLower (s : JSStr) : JSStr := s.map toLowerUnit

/-- The `@` code unit. -/
def atSign : Nat := 64

/-- The normalization performed by `searchUserByUsername`
(`src/services/chatService.ts` lines 49–52) before querying:
```
let cleanUsername = username.trim().toLowerCase();
if (!cleanUsername.startsWith('@')) {
  cleanUsername = `@${cleanUsername}`;
}
```
The function then queries `where('username', '==', cleanUsername)`; the
queried string is exactly this normalization of the input. -/
def normalizeUsername (username : JSStr) : JSStr :=
  let cleanUsername := jsToLower (jsTrim username)
  if cleanUsername.head? = some atSign then cleanUsername
  else atSign :: cleanUsername

/-! ## Spec-side definition: code-point ordering

The spec describes the chat-id sort as "ordinary lexicographic
(code-point) ordering".  To compare that description with the source's
code-unit sort, we decode UTF-16 code-unit sequences to code points and
order those lexicographically. -/

/-- Decode a UTF-16 code-unit sequence to its code points: a high
surrogate (`0xD800`–`0xDBFF`) followed by a low surrogate
(`0xDC00`–`0xDFFF`) combines into a supplementary code point; unpaired
surrogates decode to themselves. -/
def codePoints : JSStr → List Nat
  | [] => []
  | [u] => [u]
  | u :: v :: rest2 =>
    if 0xD800 ≤ u ∧ u ≤ 0xDBFF then
      if 0xDC00 ≤ v ∧ v ≤ 0xDFFF then
        (0x10000 + (u - 0xD800) * 0x400 + (v - 0xDC00)) :: codePoints rest2
      else u :: codePoints (v :: rest2)
    else u :: codePoints (v :: rest2)

/-- Lexicographic comparison of the decoded code points — the ordering
the spec's words describe ("sort the two identifiers using ordinary
lexicographic (code-point) ordering"). -/
def codePointLt (a b : JSStr) : Bool :=
  unitLt (codePoints a) (codePoints b)

/-- A code-unit sequence containing no surrogate units: on such strings
the UTF-16 decoding is the identity, so code-unit order and code-point
order coincide.  Every ASCII identifier is surrogate-free. -/
def surrogateFree (s : JSStr) : Bool :=
  s.all (fun u => !(0xD800 ≤ u && u ≤ 0xDFFF))

/-- A user record carrying only presence-relevant data (all identity
fields empty); convenient for concrete presence inputs. -/
def mkPresence (b : Option Bool) (t : Option Int) : UserProfile :=
  { uid := [], email := [], username := [], displayName := [], photoURL := none,
    createdAt := 0, isOnline := b, lastSeen := t }

/-! # Theorems -/

/-! ## C1 — online classification -/

/-- C1 (counterexample): the claim reads "online iff `isOnline` is truthy,
`lastSeen` is present, and `now - lastSeen < 120000`".  At the record
`{isOnline: true, lastSeen: 0}` with `now = 100` all three conditions
hold (`lastSeen` is present with value `0`, and `100 - 0 < 120000`), yet
the source's `if (!user.lastSeen) return false;` treats the numeric
timestamp `0` as falsy, so `isUserReallyOnline` returns `false`. -/
theorem isUserReallyOnline_zero_counterexample :
    truthyBool (mkPresence (some true) (some 0)).isOnline = true ∧
    ((mkPresence (some true) (some 0)).lastSeen).isSome = true ∧
    (100 : Int) - numVal (mkPresence (some true) (some 0)).lastSeen < 120000 ∧
    isUserReallyOnline (mkPresence (some true) (some 0)) 100 = false := by
  decide

/-- C1 (amended): for every presence record and timestamp `now`, the
reconciler classifies the user as online iff `isOnline` is truthy,
`lastSeen` is truthy (present and nonzero — JavaScript truthiness), and
`now - lastSeen < 120000`; in particular a staleness of `121000` ms
(`lastSeen = now - 121000`) is never online, whatever `isOnline` holds. -/
theorem isUserReallyOnline_iff :
    (∀ (u : UserProfile) (now : Int),
      isUserReallyOnline u now = true ↔
        u.isOnline = some true ∧
          ∃ t, u.lastSeen = some t ∧ t ≠ 0 ∧ now - t < 120000) ∧
    (∀ (b : Option Bool) (now : Int),
      isUserReallyOnline (mkPresence b (some (now - 121000))) now = false) := by
  constructor
  · intro u now
    rcases u with ⟨uid, em, un, dn, ph, cr, io, ls⟩
    unfold isUserReallyOnline
    cases io with
    | none => simp [truthyBool]
    | some b =>
      cases b with
      | false => simp [truthyBool]
      | true =>
        cases ls with
        | none => simp [truthyBool, truthyNum]
        | some t =>
          by_cases ht : t = 0
          · subst ht; simp [truthyBool, truthyNum]
          · simp [truthyBool, truthyNum, numVal, ht]
  · intro b now
    unfold isUserReallyOnline mkPresence
    by_cases hb : truthyBool b = true
    · by_cases ht : now - 121000 = 0
      · simp [hb, truthyNum, ht]
      · have hst : ¬ (now - (now - 121000) < 120000) := by omega
        simp [hb, truthyNum, numVal, ht, hst]
    · simp [Bool.not_eq_true] at hb
      simp [hb]

/-! ## C2 — status label tiers -/

/-- C2 (counterexample): the claim reads "for every not-online record with
`lastSeen` present and `elapsed = now - lastSeen ≥ 0` … the 'just now'
tier when elapsed < 2 minutes".  At `{isOnline: false, lastSeen: 0}` with
`now = 1000` the record is not online, `lastSeen` is present, and
`elapsed = 1000` is in the first band, yet the source's
`if (!user.lastSeen) return "Offline";` treats the stored `0` as falsy and
returns the plain `Offline` fallback instead of the "just now" tier. -/
theorem getStatusText_zero_counterexample :
    isUserReallyOnline (mkPresence (some false) (some 0)) 1000 = false ∧
    ((mkPresence (some false) (some 0)).lastSeen).isSome = true ∧
    (0 : Int) ≤ 1000 - numVal (mkPresence (some false) (some 0)).lastSeen ∧
    (1000 : Int) - numVal (mkPresence (some false) (some 0)).lastSeen < 120000 ∧
    getStatusText (mkPresence (some false) (some 0)) 1000 = .offline ∧
    getStatusText (mkPresence (some false) (some 0)) 1000 ≠ .justNow := by
  decide

/-- C2 (amended): for every not-online record whose `lastSeen` is truthy
(present and nonzero — JavaScript truthiness) and whose elapsed time
`now - lastSeen` is nonnegative, the label falls in the tier determined by
`elapsed`: "just now" below 2 minutes, "N minutes ago" with
`N = floor(elapsed / 60000)` below 60 minutes, "today at HH:MM" below 24
hours (exactly 1 hour included), "yesterday" below 48 hours, and the
absolute-date tier otherwise; when `lastSeen` is absent the label is the
plain `Offline` fallback. -/
theorem getStatusText_tiers :
    (∀ (u : UserProfile) (now t : Int),
      u.lastSeen = some t → t ≠ 0 → isUserReallyOnline u now = false →
      0 ≤ now - t →
        ((now - t < 120000 → getStatusText u now = .justNow) ∧
         (120000 ≤ now - t → now - t < 3600000 →
            getStatusText u now = .minutesAgo (Int.fdiv (now - t) 60000)) ∧
         (3600000 ≤ now - t → now - t < 86400000 → getStatusText u now = .todayAt t) ∧
         (86400000 ≤ now - t → now - t < 172800000 → getStatusText u now = .yesterday) ∧
         (172800000 ≤ now - t → getStatusText u now = .onDate t))) ∧
    (∀ (u : UserProfile) (now : Int),
      u.lastSeen = none → getStatusText u now = .offline) := by
  have h60000 : ∀ a : Int, Int.fdiv a 60000 = a / 60000 :=
    fun a => Int.fdiv_eq_ediv a (by norm_num)
  have h60 : ∀ a : Int, Int.fdiv a 60 = a / 60 :=
    fun a => Int.fdiv_eq_ediv a (by norm_num)
  have h24 : ∀ a : Int, Int.fdiv a 24 = a / 24 :=
    fun a => Int.fdiv_eq_ediv a (by norm_num)
  constructor
  · intro u now t hls ht0 hnot hge
    have hgs : getStatusText u now
        = (if (now - t) / 60000 < 2 then .justNow
           else if (now - t) / 60000 < 60 then .minutesAgo ((now - t) / 60000)
           else if (now - t) / 60000 / 60 < 24 then .todayAt t
           else if (now - t) / 60000 / 60 / 24 < 2 then .yesterday
           else .onDate t) := by
      unfold getStatusText
      rw [hnot, hls]
      simp [truthyNum, numVal, ht0, h60000, h60, h24]
    rw [hgs]
    simp only [h60000]
    refine ⟨fun h1 => ?_, fun h1 h2 => ?_, fun h1 h2 => ?_, fun h1 h2 => ?_,
      fun h1 => ?_⟩
    · rw [if_pos (by omega)]
    · rw [if_neg (by omega), if_pos (by omega)]
    · rw [if_neg (by omega), if_neg (by omega), if_pos (by omega)]
    · rw [if_neg (by omega), if_neg (by omega), if_neg (by omega), if_pos (by omega)]
    · rw [if_neg (by omega), if_neg (by omega), if_neg (by omega), if_neg (by omega)]
  · intro u now hls
    simp [getStatusText, isUserReallyOnline, hls, truthyNum]

/-- C2 (witness): the amended tier theorem evaluated at one concrete input
per tier (elapsed 90000, 150000, 3600000, 25 h, 50 h, and absent
`lastSeen`), matching the spec's boundary examples. -/
theorem getStatusText_tiers_witness :
    getStatusText (mkPresence (some false) (some 10000)) 100000 = .justNow ∧
    getStatusText (mkPresence (some false) (some 10000)) 160000 = .minutesAgo 2 ∧
    getStatusText (mkPresence (some false) (some 10000)) 3610000 = .todayAt 10000 ∧
    getStatusText (mkPresence (some false) (some 10000)) 90010000 = .yesterday ∧
    getStatusText (mkPresence (some false) (some 10000)) 180010000 = .onDate 10000 ∧
    getStatusText (mkPresence (some false) none) 5 = .offline := by
  refine ⟨?_, ?_, ?_, ?_, ?_, ?_⟩
  · exact (getStatusText_tiers.1 (mkPresence (some false) (some 10000)) 100000 10000
      rfl (by decide) (by decide) (by decide)).1 (by decide)
  · have h := (getStatusText_tiers.1 (mkPresence (some false) (some 10000)) 160000 10000
      rfl (by decide) (by decide) (by decide)).2.1 (by decide) (by decide)
    rw [h]; decide
  · exact (getStatusText_tiers.1 (mkPresence (some false) (some 10000)) 3610000 10000
      rfl (by decide) (by decide) (by decide)).2.2.1 (by decide) (by decide)
  · exact (getStatusText_tiers.1 (mkPresence (some false) (some 10000)) 90010000 10000
      rfl (by decide) (by decide) (by decide)).2.2.2.1 (by decide) (by decide)
  · exact (getStatusText_tiers.1 (mkPresence (some false) (some 10000)) 180010000 10000
      rfl (by decide) (by decide) (by decide)).2.2.2.2 (by decide)
  · exact getStatusText_tiers.2 (mkPresence (some false) none) 5 rfl

/-! ## Order lemmas for the code-unit comparison -/

/-- Code-unit order is asymmetric. -/
theorem unitLt_asymm : ∀ (a b : JSStr), unitLt a b = true → unitLt b a = false
  | [], [], h => by simp [unitLt] at h
  | [], _ :: _, _ => by simp [unitLt]
  | _ :: _, [], h => by simp [unitLt] at h
  | a :: as, b :: bs, h => by
    simp only [unitLt] at h ⊢
    by_cases h1 : a < b
    · have h2 : ¬ b < a := by omega
      simp [h1, h2]
    · by_cases h2 : b < a
      · simp [h1, h2] at h
      · simp [h1, h2] at h ⊢
        exact unitLt_asymm as bs h

/-- Code-unit order is total: two mutually non-less sequences are equal. -/
theorem unitLt_eq_of_not_lt :
    ∀ (a b : JSStr), unitLt a b = false → unitLt b a = false → a = b
  | [], [], _, _ => rfl
  | [], _ :: _, h, _ => by simp [unitLt] at h
  | _ :: _, [], _, h2 => by simp [unitLt] at h2
  | a :: as, b :: bs, h, h2 => by
    by_cases h1 : a < b
    · simp [unitLt, h1] at h
    · by_cases hba : b < a
      · simp [unitLt, hba] at h2
      · have hab : a = b := by omega
        subst hab
        simp only [unitLt, lt_irrefl, if_false] at h h2
        rw [unitLt_eq_of_not_lt as bs h h2]

/-! ## C3 — session-key symmetry -/

/-- C3: for every pair of identifier strings, the derived session key is
symmetric: `getChatId a b = getChatId b a`.  The default sort places the
code-unit-smaller identifier first regardless of argument order, and when
neither compares less the identifiers are equal. -/
theorem getChatId_symm (a b : JSStr) : getChatId a b = getChatId b a := by
  unfold getChatId
  by_cases h1 : unitLt b a = true
  · rw [if_pos h1, if_neg (by simp [unitLt_asymm b a h1])]
  · by_cases h2 : unitLt a b = true
    · rw [if_neg (by simp [h1]), if_pos h2]
    · have hab : a = b :=
        unitLt_eq_of_not_lt a b (Bool.not_eq_true _ ▸ h2) (Bool.not_eq_true _ ▸ h1)
      rw [hab]

/-! ## Splitting lemmas for the key-to-participants reconstruction -/

/-- Splitting a separator-free string yields a single piece. -/
theorem splitAux_no_sep :
    ∀ (sep : Nat) (s acc : JSStr), sep ∉ s → splitAux sep s acc = [acc.reverse ++ s]
  | _, [], acc, _ => by simp [splitAux]
  | sep, c :: rest, acc, h => by
    have hc : ¬ c = sep := fun e => h (e ▸ List.mem_cons_self c rest)
    have h' : sep ∉ rest := fun e => h (List.mem_cons_of_mem _ e)
    rw [splitAux, if_neg hc, splitAux_no_sep sep rest (c :: acc) h']
    simp

/-- Splitting across the first separator occurrence peels off the
separator-free prefix as the first piece. -/
theorem splitAux_sep_mid :
    ∀ (sep : Nat) (s t acc : JSStr), sep ∉ s →
      splitAux sep (s ++ sep :: t) acc = (acc.reverse ++ s) :: splitAux sep t []
  | sep, [], t, acc, _ => by simp [splitAux]
  | sep, c :: rest, t, acc, h => by
    have hc : ¬ c = sep := fun e => h (e ▸ List.mem_cons_self c rest)
    have h' : sep ∉ rest := fun e => h (List.mem_cons_of_mem _ e)
    rw [List.cons_append, splitAux, if_neg hc, splitAux_sep_mid sep rest t (c :: acc) h']
    simp

/-! ## C4 — key splitting recovers the participants -/

/-- C4: for distinct, non-empty identifiers free of the `_` delimiter,
splitting the derived session key on `_` (as `sendMessage` does for the
session metadata's `participants` field) recovers exactly the unordered
pair of the two identifiers. -/
theorem participantsFromKey_getChatId (a b : JSStr)
    (_hne : a ≠ b) (_ha : a ≠ []) (_hb : b ≠ [])
    (hua : underscore ∉ a) (hub : underscore ∉ b) :
    participantsFromKey (getChatId a b) = [a, b] ∨
    participantsFromKey (getChatId a b) = [b, a] := by
  unfold participantsFromKey getChatId
  by_cases h : unitLt b a = true
  · right
    rw [if_pos h, splitAux_sep_mid underscore b a [] hub,
      splitAux_no_sep underscore a [] hua]
    simp
  · left
    rw [if_neg (by simp [h]), splitAux_sep_mid underscore a b [] hua,
      splitAux_no_sep underscore b [] hub]
    simp

/-- C4 (witness): the splitting round-trip evaluated at the concrete
identifiers `"a"` and `"b"`. -/
theorem participantsFromKey_getChatId_witness :
    participantsFromKey (getChatId [97] [98]) = [[97], [98]] ∨
    participantsFromKey (getChatId [97] [98]) = [[98], [97]] :=
  participantsFromKey_getChatId [97] [98] (by decide) (by decide) (by decide)
    (by decide) (by decide)

/-! ## C5 — sort order of the derived key -/

/-- C5 (counterexample): the claim says the two identifiers are sorted in
lexicographic code-point order.  JavaScript's default sort compares UTF-16
code units, which differs from code-point order once supplementary-plane
characters are involved: for `A = [0xFF5F]` (U+FF5F) and
`B = [0xD800, 0xDC00]` (U+10000 as a surrogate pair), code-point order
puts `A` strictly first (`0xFF5F < 0x10000`), but `getChatId A B` outputs
`B` first (`0xD800 < 0xFF5F` on code units). -/
theorem getChatId_codepoint_counterexample :
    codePointLt [0xFF5F] [0xD800, 0xDC00] = true ∧
    getChatId [0xFF5F] [0xD800, 0xDC00] = [0xD800, 0xDC00] ++ underscore :: [0xFF5F] ∧
    getChatId [0xFF5F] [0xD800, 0xDC00] ≠ [0xFF5F] ++ underscore :: [0xD800, 0xDC00] := by
  decide

/-- Surrogate-free code-unit sequences decode to themselves. -/
theorem codePoints_of_surrogateFree :
    ∀ (s : JSStr), surrogateFree s = true → codePoints s = s
  | [], _ => rfl
  | [_], _ => rfl
  | u :: v :: rest, h => by
    simp only [surrogateFree, List.all_cons, Bool.and_eq_true,
      Bool.not_eq_true', Bool.and_eq_false_iff, decide_eq_false_iff_not,
      Nat.not_le] at h
    obtain ⟨hu, hv, hrest⟩ := h
    rw [codePoints, if_neg (by omega)]
    have : codePoints (v :: rest) = v :: rest :=
      codePoints_of_surrogateFree (v :: rest) (by
        simp only [surrogateFree, List.all_cons, Bool.and_eq_true,
          Bool.not_eq_true', Bool.and_eq_false_iff, decide_eq_false_iff_not,
          Nat.not_le]
        exact ⟨hv, hrest⟩)
    rw [this]

/-- C5 (amended): for every pair of surrogate-free identifiers (all ASCII
identifiers in particular), `getChatId` returns the two identifiers
sorted in lexicographic code-point order and joined with the fixed `_`
delimiter (in general the sort is by UTF-16 code units); and concretely
`getChatId "b2" "a1"` is exactly the string `"a1_b2"`. -/
theorem getChatId_sorted_join :
    (∀ a b : JSStr, surrogateFree a = true → surrogateFree b = true →
      ∃ x y, ((x = a ∧ y = b) ∨ (x = b ∧ y = a)) ∧
        codePointLt y x = false ∧
        getChatId a b = x ++ underscore :: y) ∧
    getChatId (units "b2") (units "a1") = units "a1_b2" := by
  constructor
  · intro a b hsa hsb
    have hcp : ∀ u v : JSStr, surrogateFree u = true → surrogateFree v = true →
        codePointLt u v = unitLt u v := by
      intro u v hu hv
      unfold codePointLt
      rw [codePoints_of_surrogateFree u hu, codePoints_of_surrogateFree v hv]
    unfold getChatId
    by_cases h : unitLt b a = true
    · refine ⟨b, a, Or.inr ⟨rfl, rfl⟩, ?_, by rw [if_pos h]⟩
      rw [hcp a b hsa hsb]
      exact unitLt_asymm b a h
    · refine ⟨a, b, Or.inl ⟨rfl, rfl⟩, ?_, by rw [if_neg (by simp [h])]⟩
      rw [hcp b a hsb hsa]
      simpa using h
  · decide

/-- C5 (witness): the amended sortedness statement evaluated at the
concrete identifiers `"b2"` and `"a1"`. -/
theorem getChatId_sorted_join_witness :
    ∃ x y, ((x = units "b2" ∧ y = units "a1") ∨ (x = units "a1" ∧ y = units "b2")) ∧
      codePointLt y x = false ∧
      getChatId (units "b2") (units "a1") = x ++ underscore :: y :=
  getChatId_sorted_join.1 (units "b2") (units "a1") (by decide) (by decide)

/-! ## C6 — offline transitions and the hidden heartbeat -/

/-- C6: a visibility transition to hidden, a `beforeunload`, and effect
teardown each produce exactly the offline write
`{isOnline: false, lastSeen: now}`; while the document stays hidden,
heartbeat ticks produce no write at all; and in the concrete run (mounted
visible at `t = 0`, heartbeats at 30000/60000/90000, hidden at 95000,
interval still ticking at 120000/150000) the recorded writes contain
exactly one offline write and no heartbeat write after hiding. -/
theorem driver_offline_transitions :
    (∀ (v : Visibility) (t : Int),
      stepDriver v (.visibility .hidden t) = (.hidden, [.transitionWrite false t])) ∧
    (∀ (v : Visibility) (t : Int),
      stepDriver v (.beforeUnload t) = (v, [.transitionWrite false t])) ∧
    (∀ (v : Visibility) (t : Int),
      stepDriver v (.unmount t) = (v, [.transitionWrite false t])) ∧
    (∀ ticks : List Int,
      runDriver .hidden (ticks.map DriverEvent.heartbeatTick) = []) ∧
    (runDriver .visible
        [.mount 0, .heartbeatTick 30000, .heartbeatTick 60000, .heartbeatTick 90000,
         .visibility .hidden 95000, .heartbeatTick 120000, .heartbeatTick 150000]
      = [.transitionWrite true 0, .heartbeatWrite 30000, .heartbeatWrite 60000,
         .heartbeatWrite 90000, .transitionWrite false 95000]) ∧
    ((runDriver .visible
        [.mount 0, .heartbeatTick 30000, .heartbeatTick 60000, .heartbeatTick 90000,
         .visibility .hidden 95000, .heartbeatTick 120000, .heartbeatTick 150000]).countP
        isOfflineWrite = 1) ∧
    ((runDriver .visible
        [.mount 0, .heartbeatTick 30000, .heartbeatTick 60000, .heartbeatTick 90000,
         .visibility .hidden 95000, .heartbeatTick 120000, .heartbeatTick 150000]).filter
        isHeartbeatWrite
      = [.heartbeatWrite 30000, .heartbeatWrite 60000, .heartbeatWrite 90000]) := by
  refine ⟨fun v t => rfl, fun v t => rfl, fun v t => rfl, fun ticks => ?_,
    by decide, by decide, by decide⟩
  induction ticks with
  | nil => rfl
  | cons t ts ih => simp [runDriver, stepDriver, ih]

/-! ## C7 — heartbeat frame property -/

/-- C7: while the document is visible, a heartbeat tick issues exactly the
partial write `{lastSeen: now}` on the fixed 30-second interval, and
merging that write into the user's stored record sets `lastSeen` and
leaves `isOnline` and every other field unchanged. -/
theorem heartbeat_updates_only_lastSeen :
    heartbeatIntervalMs = 30000 ∧
    (∀ t : Int,
      stepDriver .visible (.heartbeatTick t) = (.visible, [.heartbeatWrite t])) ∧
    (∀ (r : UserProfile) (t : Int),
      (applyWrite r (.heartbeatWrite t)).lastSeen = some t ∧
      (applyWrite r (.heartbeatWrite t)).isOnline = r.isOnline ∧
      (applyWrite r (.heartbeatWrite t)).uid = r.uid ∧
      (applyWrite r (.heartbeatWrite t)).email = r.email ∧
      (applyWrite r (.heartbeatWrite t)).username = r.username ∧
      (applyWrite r (.heartbeatWrite t)).displayName = r.displayName ∧
      (applyWrite r (.heartbeatWrite t)).photoURL = r.photoURL ∧
      (applyWrite r (.heartbeatWrite t)).createdAt = r.createdAt) :=
  ⟨rfl, fun _ => rfl,
   fun _ _ => ⟨rfl, rfl, rfl, rfl, rfl, rfl, rfl, rfl⟩⟩

/-! ## C8 — write-failure handling -/

/-- C8 (counterexample): the claim says every presence write failure —
including the heartbeat write — is caught and logged inside the lifecycle
driver.  The heartbeat `updateDoc` call carries no `.catch`, so in the
run `[mount 0, heartbeatTick 30000]` under an oracle failing every write,
the heartbeat write at 30000 escapes the driver boundary as an unhandled
promise rejection. -/
theorem heartbeat_unhandled_counterexample :
    PresenceWrite.heartbeatWrite 30000 ∈
      runDriver .visible [.mount 0, .heartbeatTick 30000] ∧
    hasRejectionHandler (.heartbeatWrite 30000) = false ∧
    escapedRejections
        (runDriverF (fun _ => true) .visible [.mount 0, .heartbeatTick 30000])
      = [.heartbeatWrite 30000] := by
  decide

/-- C8 (amended): failures of the online- and offline-transition writes
are caught and logged inside the driver (every failed transition write
lands in the `console.error` log, and every rejection that escapes the
driver boundary is a heartbeat write, whose `updateDoc` has no handler);
and no failure feeds back into the driver: the attempted write sequence
is identical under every failure oracle, so a failed write — in
particular a failed online-transition write — never prevents subsequent
heartbeat attempts and never reaches user-visible state. -/
theorem driver_failure_handling :
    (∀ (fail : PresenceWrite → Bool) (v : Visibility) (evs : List DriverEvent),
      ∀ w ∈ escapedRejections (runDriverF fail v evs), isHeartbeatWrite w = true) ∧
    (∀ (fail : PresenceWrite → Bool) (v : Visibility) (evs : List DriverEvent)
        (b : Bool) (t : Int),
      (PresenceWrite.transitionWrite b t, true) ∈ runDriverF fail v evs →
        PresenceWrite.transitionWrite b t ∈ loggedFailures (runDriverF fail v evs)) ∧
    (∀ (fail : PresenceWrite → Bool) (v : Visibility) (evs : List DriverEvent),
      (runDriverF fail v evs).map Prod.fst = runDriver v evs) ∧
    ((runDriverF (fun _ => true) .visible
        [.mount 0, .heartbeatTick 30000, .heartbeatTick 60000]).map Prod.fst
      = [.transitionWrite true 0, .heartbeatWrite 30000, .heartbeatWrite 60000]) := by
  refine ⟨?_, ?_, ?_, by decide⟩
  · intro fail v evs w hw
    unfold escapedRejections at hw
    obtain ⟨⟨w', fl⟩, hmem, hfst⟩ := List.mem_map.mp hw
    have h2 := (List.mem_filter.mp hmem).2
    cases hfst
    cases w' with
    | transitionWrite b t => simp [hasRejectionHandler] at h2
    | heartbeatWrite t => exact rfl
  · intro fail v evs b t hmem
    unfold loggedFailures
    exact List.mem_map.mpr
      ⟨(PresenceWrite.transitionWrite b t, true),
       List.mem_filter.mpr ⟨hmem, by simp [hasRejectionHandler]⟩, rfl⟩
  · intro fail v evs
    induction evs generalizing v with
    | nil => rfl
    | cons e es ih =>
      simp only [runDriverF, runDriver, List.map_append, List.map_map, ih]
      congr 1
      exact List.map_id _

/-- C8 (witness): the amended failure-handling statement evaluated on the
concrete all-failures run `[mount 0, heartbeatTick 30000]`: the escaped
rejection is a heartbeat write, the failed online-transition write is
logged, and the attempt sequence matches the failure-free one. -/
theorem driver_failure_handling_witness :
    isHeartbeatWrite (.heartbeatWrite 30000) = true ∧
    PresenceWrite.transitionWrite true 0 ∈
      loggedFailures
        (runDriverF (fun _ => true) .visible [.mount 0, .heartbeatTick 30000]) ∧
    (runDriverF (fun _ => true) .visible
        [.mount 0, .heartbeatTick 30000]).map Prod.fst
      = runDriver .visible [.mount 0, .heartbeatTick 30000] :=
  ⟨driver_failure_handling.1 (fun _ => true) .visible [.mount 0, .heartbeatTick 30000]
      (.heartbeatWrite 30000) (by decide),
   driver_failure_handling.2.1 (fun _ => true) .visible [.mount 0, .heartbeatTick 30000]
      true 0 (by decide),
   driver_failure_handling.2.2.1 (fun _ => true) .visible
      [.mount 0, .heartbeatTick 30000]⟩

/-! ## Sorting lemmas for the message snapshot handler -/

/-- Inserting a message permutes consing it. -/
theorem insertByCreatedAt_perm (m : Message) :
    ∀ l : List Message, (insertByCreatedAt m l).Perm (m :: l)
  | [] => List.Perm.refl _
  | x :: xs => by
    unfold insertByCreatedAt
    by_cases h : x.createdAt ≤ m.createdAt
    · rw [if_pos h]
      exact ((insertByCreatedAt_perm m xs).cons x).trans (List.Perm.swap m x xs)
    · rw [if_neg h]

/-- Inserting preserves sortedness by `createdAt`. -/
theorem insertByCreatedAt_sorted (m : Message) :
    ∀ l : List Message, l.Pairwise (fun a b => a.createdAt ≤ b.createdAt) →
      (insertByCreatedAt m l).Pairwise (fun a b => a.createdAt ≤ b.createdAt)
  | [], _ => by simp [insertByCreatedAt]
  | x :: xs, h => by
    obtain ⟨hx, hxs⟩ := List.pairwise_cons.mp h
    unfold insertByCreatedAt
    by_cases hc : x.createdAt ≤ m.createdAt
    · rw [if_pos hc]
      refine List.pairwise_cons.mpr ⟨?_, insertByCreatedAt_sorted m xs hxs⟩
      intro b hb
      rcases List.mem_cons.mp ((insertByCreatedAt_perm m xs).mem_iff.mp hb) with
        rfl | hbxs
      · exact hc
      · exact hx b hbxs
    · rw [if_neg hc]
      refine List.pairwise_cons.mpr ⟨?_, List.pairwise_cons.mpr ⟨hx, hxs⟩⟩
      intro b hb
      rcases List.mem_cons.mp hb with rfl | hbxs
      · omega
      · have := hx b hbxs
        omega

/-- The insertion fold is a permutation of the accumulator followed by the
input. -/
theorem foldl_insertByCreatedAt_perm :
    ∀ (l acc : List Message),
      (l.foldl (fun acc m => insertByCreatedAt m acc) acc).Perm (acc ++ l)
  | [], acc => by simp
  | m :: ms, acc => by
    simp only [List.foldl_cons]
    refine (foldl_insertByCreatedAt_perm ms (insertByCreatedAt m acc)).trans ?_
    refine (List.Perm.append_right ms (insertByCreatedAt_perm m acc)).trans ?_
    exact List.perm_middle.symm

/-- The insertion fold preserves sortedness of the accumulator. -/
theorem foldl_insertByCreatedAt_sorted :
    ∀ (l acc : List Message),
      acc.Pairwise (fun a b => a.createdAt ≤ b.createdAt) →
      (l.foldl (fun acc m => insertByCreatedAt m acc) acc).Pairwise
        (fun a b => a.createdAt ≤ b.createdAt)
  | [], _, h => h
  | m :: ms, acc, h =>
    foldl_insertByCreatedAt_sorted ms _ (insertByCreatedAt_sorted m acc h)

/-! ## C9 — client-side message ordering -/

/-- C9: for every message-snapshot list delivered by the subscription,
whatever order the documents arrive in, the resulting `messages` state is
a permutation of the delivered list arranged in non-decreasing `createdAt`
order (the sort happens client-side; the query carries no `orderBy`). -/
theorem handleMessagesSnapshot_sorted_perm (docs : List Message) :
    (handleMessagesSnapshot docs).Perm docs ∧
    (handleMessagesSnapshot docs).Pairwise
      (fun a b => a.createdAt ≤ b.createdAt) := by
  constructor
  · simpa [handleMessagesSnapshot, sortByCreatedAt] using
      foldl_insertByCreatedAt_perm docs []
  · exact foldl_insertByCreatedAt_sorted docs [] List.Pairwise.nil

/-! ## Normalization lemmas for the username search -/

/-- The ASCII case mapping is idempotent. -/
theorem toLowerUnit_idem (u : Nat) : toLowerUnit (toLowerUnit u) = toLowerUnit u := by
  unfold toLowerUnit
  by_cases h : 65 ≤ u ∧ u ≤ 90
  · rw [if_pos h, if_neg (by omega)]
  · rw [if_neg h, if_neg h]

/-- Lowercasing twice is lowercasing once. -/
theorem jsToLower_idem (s : JSStr) : jsToLower (jsToLower s) = jsToLower s := by
  unfold jsToLower
  rw [List.map_map]
  exact List.map_congr_left (fun u _ => toLowerUnit_idem u)

/-- The case mapping neither creates nor destroys whitespace. -/
theorem isTrimmedWhiteSpace_toLowerUnit (u : Nat) :
    isTrimmedWhiteSpace (toLowerUnit u) = isTrimmedWhiteSpace u := by
  unfold toLowerUnit
  by_cases h : 65 ≤ u ∧ u ≤ 90
  · rw [if_pos h]
    have h1 : isTrimmedWhiteSpace (u + 32) = false := by
      simp only [isTrimmedWhiteSpace, Bool.or_eq_false_iff, Bool.and_eq_false_iff,
        decide_eq_false_iff_not]
      omega
    have h2 : isTrimmedWhiteSpace u = false := by
      simp only [isTrimmedWhiteSpace, Bool.or_eq_false_iff, Bool.and_eq_false_iff,
        decide_eq_false_iff_not]
      omega
    rw [h1, h2]
  · rw [if_neg h]

/-- Dropping while a predicate fails at the head changes nothing. -/
theorem dropWhile_eq_self_of_head {p : Nat → Bool} :
    ∀ l : JSStr, (∀ x, l.head? = some x → p x = false) → l.dropWhile p = l
  | [], _ => rfl
  | x :: xs, h => by
    rw [List.dropWhile_cons, if_neg (by simp [h x rfl])]

/-- The head surviving a `dropWhile` fails the predicate. -/
theorem head_dropWhile_eq_false {p : Nat → Bool} :
    ∀ (l : JSStr) (x : Nat), (l.dropWhile p).head? = some x → p x = false
  | [], x, h => by simp [List.dropWhile] at h
  | a :: as, x, h => by
    rw [List.dropWhile_cons] at h
    by_cases ha : p a
    · rw [if_pos ha] at h
      exact head_dropWhile_eq_false as x h
    · rw [if_neg ha] at h
      cases h
      exact Bool.of_not_eq_true ha

/-- A string whose first and last units are not whitespace is fixed by
`jsTrim`. -/
theorem jsTrim_eq_self (l : JSStr)
    (hh : ∀ x, l.head? = some x → isTrimmedWhiteSpace x = false)
    (hl : ∀ x, l.getLast? = some x → isTrimmedWhiteSpace x = false) :
    jsTrim l = l := by
  unfold jsTrim
  rw [dropWhile_eq_self_of_head l hh,
    dropWhile_eq_self_of_head l.reverse (by
      intro x hx
      exact hl x (by rwa [List.head?_reverse] at hx)),
    List.reverse_reverse]

/-- The trimmed string has no trailing whitespace. -/
theorem jsTrim_getLast_not_white (s : JSStr) :
    ∀ x, (jsTrim s).getLast? = some x → isTrimmedWhiteSpace x = false := by
  intro x hx
  unfold jsTrim at hx
  rw [List.getLast?_reverse] at hx
  exact head_dropWhile_eq_false _ x hx

/-- Lowercasing commutes with `dropWhile` on whitespace. -/
theorem dropWhile_white_map_toLower :
    ∀ l : JSStr,
      (l.map toLowerUnit).dropWhile isTrimmedWhiteSpace
        = (l.dropWhile isTrimmedWhiteSpace).map toLowerUnit
  | [] => rfl
  | x :: xs => by
    rw [List.map_cons, List.dropWhile_cons, List.dropWhile_cons,
      isTrimmedWhiteSpace_toLowerUnit]
    by_cases hx : isTrimmedWhiteSpace x
    · rw [if_pos (by simp [hx]), if_pos (by simp [hx])]
      exact dropWhile_white_map_toLower xs
    · rw [if_neg (by simp [hx]), if_neg (by simp [hx]), List.map_cons]

/-- Lowercasing commutes with trimming. -/
theorem jsToLower_jsTrim_comm (s : JSStr) :
    jsToLower (jsTrim s) = jsTrim (jsToLower s) := by
  unfold jsTrim jsToLower
  rw [dropWhile_white_map_toLower, ← List.map_reverse,
    dropWhile_white_map_toLower, ← List.map_reverse]

/-! ## C10 — username search normalization -/

/-- C10: `searchUserByUsername` queries the normalized handle
`norm(s) = '@' prepended to lowercase(trim(s)) unless that string already
starts with '@'`; the normalization always yields a string starting with
`@`, is idempotent, and is case-insensitive (any unit-wise case variant of
the input normalizes identically) — so a lookup succeeds with or without
a leading `@` and in any letter case, as the concrete `"Alice"` /
`"@ALICE"` instances show. -/
theorem normalizeUsername_spec :
    (∀ s : JSStr, (normalizeUsername s).head? = some atSign) ∧
    (∀ s : JSStr, normalizeUsername (normalizeUsername s) = normalizeUsername s) ∧
    (∀ s t : JSStr, jsToLower t = jsToLower s →
      normalizeUsername t = normalizeUsername s) ∧
    normalizeUsername (units "Alice") = units "@alice" ∧
    normalizeUsername (units "@ALICE") = units "@alice" := by
  have hstart : ∀ s : JSStr, (normalizeUsername s).head? = some atSign := by
    intro s
    unfold normalizeUsername
    by_cases h : (jsToLower (jsTrim s)).head? = some atSign
    · rw [if_pos h]
      exact h
    · rw [if_neg h]
      rfl
  refine ⟨hstart, ?_, ?_, by decide, by decide⟩
  · intro s
    have hW64 : isTrimmedWhiteSpace atSign = false := by decide
    have hc : ∀ y, (jsToLower (jsTrim s)).getLast? = some y →
        isTrimmedWhiteSpace y = false := by
      intro y hy
      rw [jsToLower_jsTrim_comm] at hy
      exact jsTrim_getLast_not_white _ y hy
    have hlast : ∀ x, (normalizeUsername s).getLast? = some x →
        isTrimmedWhiteSpace x = false := by
      intro x hx
      simp only [normalizeUsername] at hx
      by_cases h : (jsToLower (jsTrim s)).head? = some atSign
      · rw [if_pos h] at hx
        exact hc x hx
      · rw [if_neg h] at hx
        cases hcl : jsToLower (jsTrim s) with
        | nil =>
          rw [hcl] at hx
          cases hx
          exact hW64
        | cons a l =>
          rw [hcl, List.getLast?_cons_cons] at hx
          exact hc x (by rw [hcl]; exact hx)
    have hhead : ∀ x, (normalizeUsername s).head? = some x →
        isTrimmedWhiteSpace x = false := by
      intro x hx
      rw [hstart s] at hx
      cases hx
      exact hW64
    have htrim : jsTrim (normalizeUsername s) = normalizeUsername s :=
      jsTrim_eq_self _ hhead hlast
    have hlower : jsToLower (normalizeUsername s) = normalizeUsername s := by
      simp only [normalizeUsername]
      by_cases h : (jsToLower (jsTrim s)).head? = some atSign
      · rw [if_pos h]
        exact jsToLower_idem _
      · rw [if_neg h]
        show toLowerUnit atSign :: jsToLower (jsToLower (jsTrim s))
          = atSign :: jsToLower (jsTrim s)
        rw [jsToLower_idem (jsTrim s)]
        have h64 : toLowerUnit atSign = atSign := by decide
        rw [h64]
    have hfix : ∀ l : JSStr, jsTrim l = l → jsToLower l = l →
        l.head? = some atSign → normalizeUsername l = l := by
      intro l h1 h2 h3
      simp only [normalizeUsername]
      rw [h1, h2, if_pos h3]
    exact hfix (normalizeUsername s) htrim hlower (hstart s)
  · intro s t h
    simp only [normalizeUsername]
    rw [jsToLower_jsTrim_comm t, jsToLower_jsTrim_comm s, h]

/-- C10 (witness): case-insensitivity applied at the concrete case variant
`"ALICE"` of `"alice"`, together with the evaluated normalizations. -/
theorem normalizeUsername_spec_witness :
    normalizeUsername (units "ALICE") = normalizeUsername (units "alice") ∧
    normalizeUsername (units "ALICE") = units "@alice" :=
  ⟨normalizeUsername_spec.2.2.1 (units "alice") (units "ALICE") (by decide),
   by decide⟩

end Flux
